import Mathlib

/-!
Verification development for the `sdb` debugger core.

The Rust sources are shallowly embedded:
* `Sdblib` models `src/sdblib/src/lib.rs` (the process-control engine).
  OS tracing syscalls (`ptrace attach`, `ptrace cont`, `waitpid`, process
  spawning) are modelled by an oracle `OS` giving, per engine operation
  (numbered by a step counter) and per pid, the syscall's outcome.  Each
  engine operation returns its `Result`, the post-state of the `Debugger`,
  and the list of syscalls it issued, in order.
* `Cmd` models `src/sdb/src/command.rs`: the chumsky parser pipeline
  (specialised to the concrete combinator expression in `parser()`) and the
  executor `run_command_ast`.
* `Mux` models the event fan-in loop of `TokioEventHandler::new` in
  `src/sdb/src/gui.rs`.
* `GuiHistory` models `Gui::move_history` in `src/sdb/src/gui.rs`.
-/

namespace Sdblib

/-- A syscall issued by the engine, as recorded in an operation's trace. -/
inductive Syscall where
  | ptraceAttach (pid : Int)
  | ptraceCont (pid : Int)
  | waitpid (pid : Int)
  | spawnProc (program : String)
deriving DecidableEq, Repr

/-- `std::process::Child`, reduced to what the engine reads: its id
(`child.id().cast_signed()`, an `i32` modelled as `Int`) and the optional
captured stdout handle (`child.stdout : Option<ChildStdout>`, handles
modelled as `Nat`). -/
structure Child where
  pid : Int
  stdout : Option Nat
deriving DecidableEq, Repr

/-- `DebuggerError` from `src/sdblib/src/lib.rs` (payloads of `IoError`
and `Unknown` abstracted away; `NixError` keeps the errno). -/
inductive DebuggerError where
  | ioError
  | nixError (errno : Int)
  | errorMessage (msg : String)
  | unknown
deriving DecidableEq, Repr

/-- The `Debugger` struct: owned children (`managed_processes`) and the
tracee pid set (`attached_processes`), both in insertion order. -/
structure Debugger where
  managed_processes : List Child
  attached_processes : List Int
deriving DecidableEq, Repr

/-- `Debugger::new()`. -/
def Debugger.new : Debugger :=
  { managed_processes := [], attached_processes := [] }

/-- OS oracle: outcomes of the tracing syscalls, indexed by the engine
operation's step number.  `none` means success for attach/wait/cont
(`some errno` is the failing errno); for `spawnRes`, `none` is a launch
failure (`std::io::Error`) and `some child` a successful spawn. -/
structure OS where
  attachRes : Nat → Int → Option Int
  spawnRes : Nat → String → Option Child
  waitRes : Nat → Int → Option Int
  contRes : Nat → Int → Option Int

/-- Outcome of one engine operation: its `Result`, the debugger
post-state, and the syscalls issued, in order. -/
structure EngineResult (α : Type) where
  res : Except DebuggerError α
  state : Debugger
  trace : List Syscall

/-- `i32::MAX`, the bound of the native `pid_t` representation. -/
def i32Max : Nat := 2147483647

/-- `Debugger::add_proc` (attach).  The `u64` pid is range-checked by
`try_into::<i32>()`; on overflow the operation fails with the
conversion-error message before any syscall.  Otherwise `ptrace::attach`
is issued and, on success, the pid is pushed onto `attached_processes`. -/
def add_proc (os : OS) (step : Nat) (d : Debugger) (pid : Nat) :
    EngineResult Unit :=
  if pid > i32Max then
    { res := .error (.errorMessage
        "PID conversion error: out of range integral type conversion attempted"),
      state := d, trace := [] }
  else
    match os.attachRes step (Int.ofNat pid) with
    | some errno =>
        { res := .error (.nixError errno), state := d,
          trace := [.ptraceAttach (Int.ofNat pid)] }
    | none =>
        { res := .ok (),
          state := { d with
            attached_processes := d.attached_processes ++ [Int.ofNat pid] },
          trace := [.ptraceAttach (Int.ofNat pid)] }

/-- `Debugger::add_program` (spawn).  On launch failure the `io::Error`
propagates with no state change.  On success the child's pid is pushed
onto `attached_processes`, the stdout handle is taken (`ok_or_else`
turns an absent handle into an `ErrorMessage`), the child is pushed onto
`managed_processes`, and the taken-stdout result is returned. -/
def add_program (os : OS) (step : Nat) (d : Debugger) (program : String) :
    EngineResult Nat :=
  match os.spawnRes step program with
  | none => { res := .error .ioError, state := d, trace := [.spawnProc program] }
  | some child =>
      let stdoutRes : Except DebuggerError Nat :=
        match child.stdout with
        | some h => .ok h
        | none => .error (.errorMessage
            "Failed to take stdout of the child process")
      { res := stdoutRes,
        state := { d with
          managed_processes := d.managed_processes ++ [child],
          attached_processes := d.attached_processes ++ [child.pid] },
        trace := [.spawnProc program] }

/-- The `waitpid` loop of `Debugger::wait`: iterate the attached pids in
order, stopping at the first failing `waitpid` (the `?` operator). -/
def waitList (os : OS) (step : Nat) :
    List Int → Except DebuggerError Unit × List Syscall
  | [] => (.ok (), [])
  | p :: ps =>
    match os.waitRes step p with
    | some errno => (.error (.nixError errno), [.waitpid p])
    | none =>
        let r := waitList os step ps
        (r.1, .waitpid p :: r.2)

/-- `Debugger::wait` (takes `&self`: the state is unchanged). -/
def wait (os : OS) (step : Nat) (d : Debugger) : EngineResult Unit :=
  let r := waitList os step d.attached_processes
  { res := r.1, state := d, trace := r.2 }

/-- The `ptrace::cont` loop of `Debugger::continue_execution`: resume the
attached pids in order, stopping at the first failure (`?`). -/
def contList (os : OS) (step : Nat) :
    List Int → Except DebuggerError Unit × List Syscall
  | [] => (.ok (), [])
  | p :: ps =>
    match os.contRes step p with
    | some errno => (.error (.nixError errno), [.ptraceCont p])
    | none =>
        let r := contList os step ps
        (r.1, .ptraceCont p :: r.2)

/-- `Debugger::continue_execution` (takes `&self`: state unchanged). -/
def continue_execution (os : OS) (step : Nat) (d : Debugger) :
    EngineResult Unit :=
  let r := contList os step d.attached_processes
  { res := r.1, state := d, trace := r.2 }

/-- An oracle on which every syscall succeeds; spawned children get
pid `1000 + step` and stdout handle `7`. -/
def osAllOk : OS :=
  { attachRes := fun _ _ => none,
    spawnRes := fun step _ => some { pid := Int.ofNat (1000 + step), stdout := some 7 },
    waitRes := fun _ _ => none,
    contRes := fun _ _ => none }

/-- An oracle on which `ptrace::attach` fails with errno 3 and spawning
fails with an `io::Error`. -/
def osAttachFail : OS :=
  { attachRes := fun _ _ => some 3,
    spawnRes := fun _ _ => none,
    waitRes := fun _ _ => none,
    contRes := fun _ _ => none }

/-- `true` on `waitpid` syscalls. -/
def isWaitSyscall : Syscall → Bool
  | .waitpid _ => true
  | _ => false

/-- `true` when a `Result` is an error. -/
def isErrorRes {α : Type} : Except DebuggerError α → Bool
  | .error _ => true
  | .ok _ => false

/-- Well-formedness of the spawn boundary (the contract of
`std::process::Command`): the engine configures `Stdio::piped()`, so a
successfully spawned child always carries a stdout handle. -/
def SpawnWF (os : OS) : Prop :=
  ∀ step prog child, os.spawnRes step prog = some child → child.stdout.isSome

/-- One public engine operation, as invocable from outside. -/
inductive Op where
  | attach (pid : Nat)
  | spawn (program : String)
  | wait
  | cont
deriving DecidableEq, Repr

/-- The debugger post-state of one operation. -/
def applyOp (os : OS) (step : Nat) (d : Debugger) : Op → Debugger
  | .attach pid => (add_proc os step d pid).state
  | .spawn prog => (add_program os step d prog).state
  | .wait => (Sdblib.wait os step d).state
  | .cont => (continue_execution os step d).state

/-- Run a sequence of engine operations, numbering them by step. -/
def runOps (os : OS) : Nat → Debugger → List Op → Debugger
  | _, d, [] => d
  | step, d, op :: ops => runOps os (step + 1) (applyOp os step d op) ops

/-- The pid an operation adds to the tracee set at a given step, if any:
a successful in-range attach adds the attached pid, a successful spawn
adds the new child's pid. -/
def granted (os : OS) (step : Nat) : Op → Option Int
  | .attach pid =>
      if pid > i32Max then none
      else
        match os.attachRes step (Int.ofNat pid) with
        | some _ => none
        | none => some (Int.ofNat pid)
  | .spawn prog => (os.spawnRes step prog).map Child.pid
  | .wait => none
  | .cont => none

/-- The OS grants fresh pids along a run: each pid added to the tracee
set is not already in it (two live processes never share a pid; attaching
to an already-traced process fails). -/
def freshRun (os : OS) : Nat → Debugger → List Op → Bool
  | _, _, [] => true
  | step, d, op :: ops =>
      (match granted os step op with
       | none => true
       | some p => !(decide (p ∈ d.attached_processes))) &&
      freshRun os (step + 1) (applyOp os step d op) ops

end Sdblib

namespace Cmd

/-- `ErrorKind` from `src/sdb/src/command.rs`. -/
inductive ErrorKind where
  | UnexpectedCommand (s : String)
deriving DecidableEq, Repr

/-- The `Commands` AST from `src/sdb/src/command.rs`. -/
inductive Commands where
  | Continue
  | Exit
  | Sequence (cmds : List Commands)
  | Error (kind : ErrorKind)
deriving Repr

/-- A parse diagnostic's byte span (inputs here are ASCII, so byte
offsets coincide with character offsets). -/
structure Diag where
  start : Nat
  stop : Nat
deriving DecidableEq, Repr

/-- Number of leading whitespace characters (`padded()` skips
whitespace; on the ASCII inputs of interest Lean's `Char.isWhitespace`
agrees with Rust's `char::is_whitespace`). -/
def countWs : List Char → Nat
  | [] => 0
  | c :: cs => if c.isWhitespace then countWs cs + 1 else 0

/-- Position after skipping whitespace from `pos`. -/
def skipWs (inp : List Char) (pos : Nat) : Nat :=
  pos + countWs (inp.drop pos)

/-- `just(lit)`: match the literal from `pos`; on success the new
position, on failure the offset of the first mismatch (chumsky reports
the error at the offending token). -/
def matchLit (inp : List Char) : Nat → List Char → Except Nat Nat
  | pos, [] => .ok pos
  | pos, c :: cs =>
    match inp[pos]? with
    | some t => if t = c then matchLit inp (pos + 1) cs else .error pos
    | none => .error pos

/-- `just(lit).padded()`: skip whitespace, match, skip whitespace. -/
def paddedLit (inp : List Char) (pos : Nat) (lit : List Char) : Except Nat Nat :=
  match matchLit inp (skipWs inp pos) lit with
  | .error e => .error e
  | .ok p => .ok (skipWs inp p)

/-- The `choice((just("continue").padded().to(Continue),
just("exit").padded().to(Exit)))` alternative; on failure the merged
error keeps the furthest offset (chumsky's alt-error preference). -/
def singleChoice (inp : List Char) (pos : Nat) : Except Nat (Commands × Nat) :=
  match paddedLit inp pos "continue".toList with
  | .ok p => .ok (Commands.Continue, p)
  | .error e1 =>
    match paddedLit inp pos "exit".toList with
    | .ok p => .ok (Commands.Exit, p)
    | .error e2 => .error (max e1 e2)

/-- Number of leading ASCII-alphabetic characters. -/
def countAlpha : List Char → Nat
  | [] => 0
  | c :: cs => if c.isAlpha then countAlpha cs + 1 else 0

/-- The `error_command` recovery parser: one or more ASCII-alphabetic
characters collected into a `String` (no padding). -/
def takeAlpha (inp : List Char) (pos : Nat) : Option (String × Nat) :=
  let n := countAlpha (inp.drop pos)
  if n = 0 then none
  else some (String.mk ((inp.drop pos).take n), pos + n)

/-- The one-character span of the token at offset `e` (empty at end of
input, as chumsky reports end-of-input errors). -/
def diagAt (inp : List Char) (e : Nat) : Diag :=
  { start := e, stop := min (e + 1) inp.length }

/-- `single_command`: the choice with
`recover_with(via_parser(error_command.map(Commands::Error)))`.  On
recovery the input is rewound to where the failed pattern began, the
recovery parser runs there, and the failed pattern's error is emitted as
a diagnostic. -/
def singleRec (inp : List Char) (pos : Nat) :
    Except Nat (Commands × Nat × List Diag) :=
  match singleChoice inp pos with
  | .ok (c, p) => .ok (c, p, [])
  | .error e =>
    match takeAlpha inp pos with
    | some (s, p) =>
        .ok (Commands.Error (ErrorKind.UnexpectedCommand s), p, [diagAt inp e])
    | none => .error e

/-- The `(";" single_command)*` tail of `separated_by(just(";"))`: on a
failed separator-plus-item attempt the input is rewound to after the
last successful item and the repetition ends. -/
def seqLoop (inp : List Char) :
    Nat → Nat → List Commands → List Diag → (List Commands × List Diag × Nat)
  | 0, pos, acc, diags => (acc, diags, pos)
  | fuel + 1, pos, acc, diags =>
    if inp[pos]? = some ';' then
      match singleRec inp (pos + 1) with
      | .ok (c, p, ds) => seqLoop inp fuel p (acc ++ [c]) (diags ++ ds)
      | .error _ => (acc, diags, pos)
    else (acc, diags, pos)

/-- `parser().parse(input)`: zero-or-more `;`-separated single commands,
then end of input.  On success, the item list and the emitted
diagnostics; on failure no output, the diagnostics plus the final parse
error (whose exact merged offset chumsky computes from all failed
alternatives; it is modelled here as the stuck position). -/
def parseTop (inp : List Char) : Option (List Commands) × List Diag :=
  let first :=
    match singleRec inp 0 with
    | .ok (c, p, ds) => (([c], ds), p)
    | .error _ => (([], ([] : List Diag)), 0)
  let r := seqLoop inp (inp.length + 1) first.2 first.1.1 first.1.2
  if r.2.2 = inp.length then (some r.1, r.2.1)
  else (none, r.2.1 ++ [diagAt inp r.2.2])

/-- Rust `str::trim`. -/
def trimChars (l : List Char) : List Char :=
  ((l.dropWhile Char.isWhitespace).reverse.dropWhile Char.isWhitespace).reverse

/-- `parse_command`: trim the input, run the parser and wrap the item
list in a `Sequence` node; diagnostics are rendered to the output sink
(modelled as the returned list). -/
def parse_command (s : String) : Option Commands × List Diag :=
  let r := parseTop (trimChars s.toList)
  (r.1.map Commands.Sequence, r.2)

/-- The line `writeln!(output, "Error: {err:?}")` prints for an `Error`
node (Rust's `Debug` for `String` quotes it; escape sequences inside the
token are abstracted — the tokens of interest are plain alphabetic). -/
def errLine : ErrorKind → String
  | .UnexpectedCommand s => "Error: UnexpectedCommand(\"" ++ s ++ "\")"

/-- Outcome of executing a command AST: the `Result<bool>` ("continue
session?"), the engine-call step counter after execution, the lines
written to the output sink, and the syscalls issued. -/
structure CmdOut where
  res : Except Sdblib.DebuggerError Bool
  step : Nat
  output : List String
  trace : List Sdblib.Syscall

mutual

/-- `run_command_ast` from `src/sdb/src/command.rs`.  `Continue` invokes
the engine's `continue_execution` (errors propagate via `?`); `Exit`
returns `Ok(false)`; a `Sequence` runs its elements in order, stopping
at the first `Ok(false)` or error; `Error` prints one line and returns
`Ok(true)`.  `continue_execution` takes `&self`, so the debugger value
is unchanged throughout; engine calls are numbered by `step`. -/
def run_command_ast (os : Sdblib.OS) (d : Sdblib.Debugger) :
    Commands → Nat → CmdOut
  | .Continue, step =>
    let c := Sdblib.continue_execution os step d
    match c.res with
    | .error e => { res := .error e, step := step + 1, output := [], trace := c.trace }
    | .ok _ => { res := .ok true, step := step + 1, output := [], trace := c.trace }
  | .Exit, step => { res := .ok false, step := step, output := [], trace := [] }
  | .Sequence cmds, step => runSeqCmds os d cmds step
  | .Error k, step => { res := .ok true, step := step, output := [errLine k], trace := [] }

/-- The `for cmd in commands` loop of the `Sequence` arm. -/
def runSeqCmds (os : Sdblib.OS) (d : Sdblib.Debugger) :
    List Commands → Nat → CmdOut
  | [], step => { res := .ok true, step := step, output := [], trace := [] }
  | c :: cs, step =>
    let r := run_command_ast os d c step
    match r.res with
    | .ok true =>
      let r2 := runSeqCmds os d cs r.step
      { res := r2.res, step := r2.step, output := r.output ++ r2.output,
        trace := r.trace ++ r2.trace }
    | _ => r

end

/-- A leaf of the command AST, for stating execution order. -/
inductive Atom where
  | resume
  | exit
  | fault (k : ErrorKind)
deriving DecidableEq, Repr

mutual

/-- Depth-first, left-to-right flattening of an AST into its leaves. -/
def atoms : Commands → List Atom
  | .Continue => [.resume]
  | .Exit => [.exit]
  | .Error k => [.fault k]
  | .Sequence cmds => atomsList cmds

/-- Flattening of a list of ASTs. -/
def atomsList : List Commands → List Atom
  | [] => []
  | c :: cs => atoms c ++ atomsList cs

end

/-- Executing a flat leaf list: stop at the first `exit` (result
`Ok(false)`) or first failing resume (error); `fault` prints its line
and continues. -/
def runAtoms (os : Sdblib.OS) (d : Sdblib.Debugger) :
    List Atom → Nat → CmdOut
  | [], step => { res := .ok true, step := step, output := [], trace := [] }
  | .exit :: _, step => { res := .ok false, step := step, output := [], trace := [] }
  | .fault k :: rest, step =>
    let r := runAtoms os d rest step
    { r with output := errLine k :: r.output }
  | .resume :: rest, step =>
    let c := Sdblib.continue_execution os step d
    match c.res with
    | .error e => { res := .error e, step := step + 1, output := [], trace := c.trace }
    | .ok _ =>
      let r := runAtoms os d rest (step + 1)
      { res := r.res, step := r.step, output := r.output, trace := c.trace ++ r.trace }

/-- Sequential composition of execution outcomes: if the first half
ends with `Ok(true)`, continue with the second from its step counter,
concatenating output and trace; otherwise stop with the first half. -/
def seqOut (r : CmdOut) (k : Nat → CmdOut) : CmdOut :=
  match r.res with
  | .ok true =>
    let r2 := k r.step
    { res := r2.res, step := r2.step, output := r.output ++ r2.output,
      trace := r.trace ++ r2.trace }
  | _ => r

end Cmd

namespace Mux

/-- A raw terminal event (`crossterm::event::Event`), payload abstract. -/
structure CrosstermEvent where
  id : Nat
deriving DecidableEq, Repr

/-- The `Event` enum of `src/sdb/src/gui.rs`. -/
inductive MuxEvent where
  | error
  | tick
  | childOutput (line : String)
  | crossterm (e : CrosstermEvent)
deriving DecidableEq, Repr

/-- What `reader.next()` (the terminal event stream) yielded. -/
inductive TermRead where
  | closed
  | ev (e : CrosstermEvent)
  | failed
deriving DecidableEq, Repr

/-- What `next_line()` on the child-output reader yielded:
`Ok(Some(line))`, `Ok(None)` (end of stream), or `Err(_)`. -/
inductive ChildRead where
  | line (s : String)
  | eos
  | failed
deriving DecidableEq, Repr

/-- Which `tokio::select!` branch completed on one loop iteration, and
with what. -/
inductive SelectReady where
  | term (r : TermRead)
  | tickFire
  | child (r : ChildRead)
deriving DecidableEq, Repr

/-- One iteration of the event-task loop in `TokioEventHandler::new`.
The state is whether `child_output_reader` is still present; the output
is the events sent on the channel this iteration.  A closed terminal
stream sends nothing; terminal errors send `Event::Error`; the tick
sends `Event::Tick`; a child line sends `Event::ChildOutput`;
end-of-stream on the child drops the reader and sends nothing; a child
read error sends `Event::Error` and drops the reader. -/
def muxStep (childPresent : Bool) : SelectReady → Bool × List MuxEvent
  | .term .closed => (childPresent, [])
  | .term (.ev e) => (childPresent, [.crossterm e])
  | .term .failed => (childPresent, [.error])
  | .tickFire => (childPresent, [.tick])
  | .child (.line s) => (childPresent, [.childOutput s])
  | .child .eos => (false, [])
  | .child .failed => (false, [.error])

/-- Run the loop over a schedule of select outcomes. -/
def muxRun : Bool → List SelectReady → Bool × List MuxEvent
  | b, [] => (b, [])
  | b, o :: os =>
    let s := muxStep b o
    let r := muxRun s.1 os
    (r.1, s.2 ++ r.2)

/-- Outcomes available once the child source is gone: ticks and
successfully read terminal events. -/
def isTickOrTermEv : SelectReady → Bool
  | .tickFire => true
  | .term (.ev _) => true
  | _ => false

end Mux

namespace GuiHistory

/-- The history-navigation state of `Gui` (`src/sdb/src/gui.rs`): the
submitted-command log, the scratch buffer `history_current`, the cursor
`index_history`, and the input widget's text (the edit-cursor position
is presentation state and not modelled). -/
structure GuiState where
  history : List String
  history_current : String
  index_history : Nat
  input : String
deriving DecidableEq, Repr

/-- `Gui::move_history`.  `saturating_add_signed` is modelled by `Int`
addition truncated at zero with `Int.toNat` (the `usize::MAX` upper
saturation point is unreachable here).  Out-of-range reads of
`history[new_index]` cannot occur (`new_index < len` in that branch);
`getD` supplies the default. -/
def move_history (s : GuiState) (direction : Int) : GuiState :=
  if s.history.isEmpty then s
  else
    let new_index := ((s.index_history : Int) + direction).toNat
    if new_index > s.history.length then s
    else if s.index_history = new_index then s
    else if new_index = s.history.length then
      { s with index_history := new_index, input := s.history_current }
    else
      let captured :=
        if s.index_history = s.history.length
        then { s with history_current := s.input }
        else s
      { captured with
        index_history := new_index,
        input := captured.history.getD new_index "" }

end GuiHistory

namespace Sdblib

theorem contList_no_waitpid (os : OS) (step : Nat) (l : List Int) :
    ((contList os step l).2.all fun s => !isWaitSyscall s) = true := by
  induction l with
  | nil => rfl
  | cons p ps ih =>
    cases h : os.contRes step p with
    | some errno => simp [contList, h, isWaitSyscall]
    | none =>
      have hrest := ih
      simp [contList, h, isWaitSyscall] at hrest ⊢
      exact hrest

theorem contList_all_ok (os : OS) (step : Nat) (l : List Int)
    (h : ∀ p ∈ l, os.contRes step p = none) :
    contList os step l = (.ok (), l.map Syscall.ptraceCont) := by
  induction l with
  | nil => rfl
  | cons p ps ih =>
    have hp := h p (List.mem_cons_self p ps)
    simp [contList, hp, ih fun q hq => h q (List.mem_cons_of_mem p hq)]

end Sdblib

/-- C1: the claim says `continue_execution` performs an internal `wait()`
after resuming, returning only once the resumed tracees stop again.  At
the concrete debugger state with one attached tracee (pid 5) and an OS on
which the resume succeeds, the call succeeds having issued only
`ptrace cont 5` — its syscall trace contains no `waitpid` at all, so no
internal wait is performed. -/
theorem C1_counterexample :
    (Sdblib.continue_execution Sdblib.osAllOk 0
        { managed_processes := [], attached_processes := [5] }).res = .ok () ∧
    (Sdblib.continue_execution Sdblib.osAllOk 0
        { managed_processes := [], attached_processes := [5] }).trace
      = [Sdblib.Syscall.ptraceCont 5] ∧
    ((Sdblib.continue_execution Sdblib.osAllOk 0
        { managed_processes := [], attached_processes := [5] }).trace.all
      fun s => !Sdblib.isWaitSyscall s) = true :=
  ⟨rfl, rfl, rfl⟩

/-- C1 (amended): `continue_execution` issues `ptrace cont` to every
tracee in the attached set (stopping at the first failure), never issues
any `waitpid`, and leaves the debugger state unchanged; when every resume
succeeds it returns `Ok(())` with exactly one `ptrace cont` per attached
pid in insertion order.  It returns immediately after resuming: no
internal `wait()` is performed. -/
theorem C1_amended_thm (os : Sdblib.OS) (step : Nat) (d : Sdblib.Debugger) :
    ((Sdblib.continue_execution os step d).trace.all
        fun s => !Sdblib.isWaitSyscall s) = true ∧
    (Sdblib.continue_execution os step d).state = d ∧
    ((∀ p ∈ d.attached_processes, os.contRes step p = none) →
      (Sdblib.continue_execution os step d).res = .ok () ∧
      (Sdblib.continue_execution os step d).trace
        = d.attached_processes.map Sdblib.Syscall.ptraceCont) := by
  refine ⟨Sdblib.contList_no_waitpid os step d.attached_processes, rfl, ?_⟩
  intro h
  have heq := Sdblib.contList_all_ok os step d.attached_processes h
  constructor
  · show (Sdblib.contList os step d.attached_processes).1 = .ok ()
    rw [heq]
  · show (Sdblib.contList os step d.attached_processes).2 = _
    rw [heq]

/-- C1 witness: the amended theorem at the one-tracee state and the
all-succeeding OS. -/
theorem C1_amended_witness :
    (Sdblib.continue_execution Sdblib.osAllOk 0
        { managed_processes := [], attached_processes := [5] }).res = .ok () ∧
    (Sdblib.continue_execution Sdblib.osAllOk 0
        { managed_processes := [], attached_processes := [5] }).trace
      = [Sdblib.Syscall.ptraceCont 5] :=
  (C1_amended_thm Sdblib.osAllOk 0
      { managed_processes := [], attached_processes := [5] }).2.2
    (by intro p hp; rfl)

/-- C6: attaching a process identifier above `i32::MAX` (the native
signed pid range) fails with the conversion-error message, issues no
tracing syscall, and leaves the debugger (tracee set included)
unchanged. -/
theorem C6_thm (os : Sdblib.OS) (step : Nat) (d : Sdblib.Debugger) (pid : Nat)
    (h : pid > Sdblib.i32Max) :
    Sdblib.add_proc os step d pid =
      { res := .error (.errorMessage
          "PID conversion error: out of range integral type conversion attempted"),
        state := d, trace := [] } := by
  simp [Sdblib.add_proc, h]

/-- C6 witness: pid `i32::MAX + 1 = 2147483648`. -/
theorem C6_witness :
    Sdblib.add_proc Sdblib.osAllOk 0 Sdblib.Debugger.new 2147483648 =
      { res := .error (.errorMessage
          "PID conversion error: out of range integral type conversion attempted"),
        state := Sdblib.Debugger.new, trace := [] } :=
  C6_thm Sdblib.osAllOk 0 Sdblib.Debugger.new 2147483648 (by decide)

/-- C3: under the std contract that a successfully spawned piped child
carries a stdout handle (`SpawnWF`), every engine operation that returns
an error leaves the debugger — tracee set and owned-children list —
unchanged; in particular a spawn whose launch fails (nonexistent
executable) returns the I/O error with no partial registration, and
`wait`/`continue_execution` never change the state at all. -/
theorem C3_thm (os : Sdblib.OS) (hwf : Sdblib.SpawnWF os) (step : Nat)
    (d : Sdblib.Debugger) (pid : Nat) (prog : String) :
    (Sdblib.isErrorRes (Sdblib.add_proc os step d pid).res = true →
      (Sdblib.add_proc os step d pid).state = d) ∧
    (Sdblib.isErrorRes (Sdblib.add_program os step d prog).res = true →
      (Sdblib.add_program os step d prog).state = d) ∧
    (os.spawnRes step prog = none →
      (Sdblib.add_program os step d prog).res = .error .ioError ∧
      (Sdblib.add_program os step d prog).state = d) ∧
    (Sdblib.wait os step d).state = d ∧
    (Sdblib.continue_execution os step d).state = d := by
  refine ⟨?_, ?_, ?_, rfl, rfl⟩
  · intro herr
    by_cases hp : pid > Sdblib.i32Max
    · simp [Sdblib.add_proc, hp]
    · unfold Sdblib.add_proc at herr ⊢
      rw [if_neg hp] at herr ⊢
      cases ha : os.attachRes step (Int.ofNat pid) with
      | some errno => rfl
      | none =>
        rw [ha] at herr
        simp [Sdblib.isErrorRes] at herr
  · intro herr
    cases hs : os.spawnRes step prog with
    | none => simp [Sdblib.add_program, hs]
    | some child =>
      exfalso
      have hsome := hwf step prog child hs
      cases hst : child.stdout with
      | none => rw [hst] at hsome; simp at hsome
      | some hdl =>
        simp [Sdblib.add_program, hs, hst, Sdblib.isErrorRes] at herr
  · intro hs
    constructor <;> simp [Sdblib.add_program, hs]

/-- C3 witness: on an OS where attach fails with errno 3 and spawn fails
with an I/O error, the failed attach and failed spawn both leave the
fresh debugger unchanged. -/
theorem C3_witness :
    (Sdblib.add_proc Sdblib.osAttachFail 0 Sdblib.Debugger.new 5).state
        = Sdblib.Debugger.new ∧
    (Sdblib.add_program Sdblib.osAttachFail 0 Sdblib.Debugger.new
        "/nonexistent/path").res = .error .ioError ∧
    (Sdblib.add_program Sdblib.osAttachFail 0 Sdblib.Debugger.new
        "/nonexistent/path").state = Sdblib.Debugger.new := by
  have h := C3_thm Sdblib.osAttachFail
    (by intro step prog child hc; simp [Sdblib.osAttachFail] at hc)
    0 Sdblib.Debugger.new 5 "/nonexistent/path"
  exact ⟨h.1 rfl, (h.2.2.1 rfl).1, (h.2.2.1 rfl).2⟩

namespace Sdblib

theorem add_proc_state_big (os : OS) (step : Nat) (d : Debugger) (pid : Nat)
    (hp : pid > i32Max) : (add_proc os step d pid).state = d := by
  unfold add_proc
  rw [if_pos hp]

theorem add_proc_state_errno (os : OS) (step : Nat) (d : Debugger) (pid : Nat)
    (errno : Int) (hp : ¬pid > i32Max)
    (ha : os.attachRes step (Int.ofNat pid) = some errno) :
    (add_proc os step d pid).state = d := by
  unfold add_proc
  rw [if_neg hp, ha]

theorem add_proc_state_ok (os : OS) (step : Nat) (d : Debugger) (pid : Nat)
    (hp : ¬pid > i32Max) (ha : os.attachRes step (Int.ofNat pid) = none) :
    (add_proc os step d pid).state =
      { managed_processes := d.managed_processes,
        attached_processes := d.attached_processes ++ [Int.ofNat pid] } := by
  unfold add_proc
  rw [if_neg hp, ha]

theorem add_program_state_none (os : OS) (step : Nat) (d : Debugger)
    (prog : String) (hs : os.spawnRes step prog = none) :
    (add_program os step d prog).state = d := by
  unfold add_program
  rw [hs]

theorem add_program_state_some (os : OS) (step : Nat) (d : Debugger)
    (prog : String) (child : Child) (hs : os.spawnRes step prog = some child) :
    (add_program os step d prog).state =
      { managed_processes := d.managed_processes ++ [child],
        attached_processes := d.attached_processes ++ [child.pid] } := by
  unfold add_program
  rw [hs]

theorem granted_attach_ok (os : OS) (step : Nat) (pid : Nat)
    (hp : ¬pid > i32Max) (ha : os.attachRes step (Int.ofNat pid) = none) :
    granted os step (Op.attach pid) = some (Int.ofNat pid) := by
  simp only [granted]
  rw [if_neg hp, ha]

theorem granted_spawn_some (os : OS) (step : Nat) (prog : String)
    (child : Child) (hs : os.spawnRes step prog = some child) :
    granted os step (Op.spawn prog) = some child.pid := by
  simp only [granted]
  rw [hs]
  rfl

theorem freshRun_head (os : OS) (step : Nat) (d : Debugger) (op : Op)
    (ops : List Op) (h : freshRun os step d (op :: ops) = true) :
    (∀ p, granted os step op = some p → p ∉ d.attached_processes) ∧
    freshRun os (step + 1) (applyOp os step d op) ops = true := by
  simp only [freshRun, Bool.and_eq_true] at h
  refine ⟨?_, h.2⟩
  intro p hp
  have h1 := h.1
  rw [hp] at h1
  simpa using h1

theorem applyOp_good (os : OS) (step : Nat) (d : Debugger) (op : Op)
    (h1 : d.attached_processes.Nodup)
    (h2 : ∀ c ∈ d.managed_processes, c.pid ∈ d.attached_processes)
    (hf : ∀ p, granted os step op = some p → p ∉ d.attached_processes) :
    (applyOp os step d op).attached_processes.Nodup ∧
    ∀ c ∈ (applyOp os step d op).managed_processes,
      c.pid ∈ (applyOp os step d op).attached_processes := by
  cases op with
  | wait => exact ⟨h1, h2⟩
  | cont => exact ⟨h1, h2⟩
  | attach pid =>
    simp only [applyOp]
    by_cases hp : pid > i32Max
    · rw [add_proc_state_big os step d pid hp]
      exact ⟨h1, h2⟩
    · cases ha : os.attachRes step (Int.ofNat pid) with
      | some errno =>
        rw [add_proc_state_errno os step d pid errno hp ha]
        exact ⟨h1, h2⟩
      | none =>
        have hfresh := hf _ (granted_attach_ok os step pid hp ha)
        rw [add_proc_state_ok os step d pid hp ha]
        constructor
        · refine List.Nodup.append h1 (List.nodup_singleton _) ?_
          intro x hx hxa
          rw [List.mem_singleton] at hxa
          subst hxa
          exact hfresh hx
        · intro c hc
          exact List.mem_append_left _ (h2 c hc)
  | spawn prog =>
    simp only [applyOp]
    cases hs : os.spawnRes step prog with
    | none =>
      rw [add_program_state_none os step d prog hs]
      exact ⟨h1, h2⟩
    | some child =>
      have hfresh := hf _ (granted_spawn_some os step prog child hs)
      rw [add_program_state_some os step d prog child hs]
      constructor
      · refine List.Nodup.append h1 (List.nodup_singleton _) ?_
        intro x hx hxa
        rw [List.mem_singleton] at hxa
        subst hxa
        exact hfresh hx
      · intro c hc
        rcases List.mem_append.mp hc with hold | hnew
        · exact List.mem_append_left _ (h2 c hold)
        · rw [List.mem_singleton] at hnew
          subst hnew
          exact List.mem_append_right _ (List.mem_singleton_self _)

theorem runOps_good (os : OS) (ops : List Op) :
    ∀ (step : Nat) (d : Debugger),
    d.attached_processes.Nodup →
    (∀ c ∈ d.managed_processes, c.pid ∈ d.attached_processes) →
    freshRun os step d ops = true →
    (runOps os step d ops).attached_processes.Nodup ∧
    ∀ c ∈ (runOps os step d ops).managed_processes,
      c.pid ∈ (runOps os step d ops).attached_processes := by
  induction ops with
  | nil =>
    intro step d h1 h2 _
    exact ⟨h1, h2⟩
  | cons op ops ih =>
    intro step d h1 h2 hf
    obtain ⟨hfh, hft⟩ := freshRun_head os step d op ops hf
    obtain ⟨g1, g2⟩ := applyOp_good os step d op h1 h2 hfh
    exact ih (step + 1) (applyOp os step d op) g1 g2 hft

end Sdblib

/-- C7: the claim also says the two collections are only ever added to
together.  At the concrete input: attaching pid 5 to a fresh debugger
(with the attach syscall succeeding) grows the tracee set to `[5]` while
the owned-children list stays empty — the tracee set is added to alone,
so the collections are not only ever added to together. -/
theorem C7_counterexample :
    (Sdblib.applyOp Sdblib.osAllOk 0 Sdblib.Debugger.new
        (Sdblib.Op.attach 5)).attached_processes = [5] ∧
    (Sdblib.applyOp Sdblib.osAllOk 0 Sdblib.Debugger.new
        (Sdblib.Op.attach 5)).managed_processes = [] ∧
    Sdblib.Debugger.new.attached_processes = [] ∧
    Sdblib.Debugger.new.managed_processes = [] :=
  ⟨rfl, rfl, rfl, rfl⟩

/-- C7 (amended): after every sequence of engine operations from a state
satisfying the invariant (no duplicate tracee pids, every owned child's
pid in the tracee set), provided the OS grants fresh pids (`freshRun`:
each pid added by a successful attach or spawn is not already attached),
every owned child handle corresponds to exactly one tracee identity in
the tracee set.  The two collections are added to together by `spawn`
(`add_program` pushes the child handle and its pid in the same call),
while `attach` (`add_proc`) adds only to the tracee set. -/
theorem C7_amended_thm (os : Sdblib.OS) (step : Nat) (d : Sdblib.Debugger)
    (ops : List Sdblib.Op)
    (h1 : d.attached_processes.Nodup)
    (h2 : ∀ c ∈ d.managed_processes, c.pid ∈ d.attached_processes)
    (hf : Sdblib.freshRun os step d ops = true) :
    (∀ c ∈ (Sdblib.runOps os step d ops).managed_processes,
      (Sdblib.runOps os step d ops).attached_processes.count c.pid = 1) ∧
    (∀ step' d' prog child, os.spawnRes step' prog = some child →
      (Sdblib.add_program os step' d' prog).state.managed_processes
          = d'.managed_processes ++ [child] ∧
      (Sdblib.add_program os step' d' prog).state.attached_processes
          = d'.attached_processes ++ [child.pid]) ∧
    (∀ step' d' pid, (Sdblib.add_proc os step' d' pid).state.managed_processes
          = d'.managed_processes) := by
  obtain ⟨g1, g2⟩ := Sdblib.runOps_good os ops step d h1 h2 hf
  refine ⟨?_, ?_, ?_⟩
  · intro c hc
    exact List.count_eq_one_of_mem g1 (g2 c hc)
  · intro step' d' prog child hs
    rw [Sdblib.add_program_state_some os step' d' prog child hs]
    exact ⟨rfl, rfl⟩
  · intro step' d' pid
    by_cases hp : pid > Sdblib.i32Max
    · rw [Sdblib.add_proc_state_big os step' d' pid hp]
    · cases ha : os.attachRes step' (Int.ofNat pid) with
      | some errno => rw [Sdblib.add_proc_state_errno os step' d' pid errno hp ha]
      | none => rw [Sdblib.add_proc_state_ok os step' d' pid hp ha]

/-- C7 witness: spawn (granting pid 1000), attach pid 5, wait, continue,
from the fresh debugger; the spawned child's pid occurs exactly once in
the tracee set. -/
theorem C7_amended_witness :
    (Sdblib.runOps Sdblib.osAllOk 0 Sdblib.Debugger.new
        [Sdblib.Op.spawn "/bin/target", Sdblib.Op.attach 5,
         Sdblib.Op.wait, Sdblib.Op.cont]).attached_processes.count 1000 = 1 :=
  (C7_amended_thm Sdblib.osAllOk 0 Sdblib.Debugger.new
      [Sdblib.Op.spawn "/bin/target", Sdblib.Op.attach 5,
       Sdblib.Op.wait, Sdblib.Op.cont]
      (by decide) (by intro c hc; simp [Sdblib.Debugger.new] at hc)
      (by decide)).1
    { pid := 1000, stdout := some 7 } (by decide)

namespace Cmd

theorem runAtoms_fault (os : Sdblib.OS) (d : Sdblib.Debugger)
    (k : ErrorKind) (rest : List Atom) (step : Nat) :
    runAtoms os d (Atom.fault k :: rest) step =
      { runAtoms os d rest step with
        output := errLine k :: (runAtoms os d rest step).output } :=
  rfl

theorem runAtoms_resume (os : Sdblib.OS) (d : Sdblib.Debugger)
    (rest : List Atom) (step : Nat) :
    runAtoms os d (Atom.resume :: rest) step =
      match (Sdblib.continue_execution os step d).res with
      | .error e =>
        { res := .error e, step := step + 1, output := [],
          trace := (Sdblib.continue_execution os step d).trace }
      | .ok _ =>
        { res := (runAtoms os d rest (step + 1)).res,
          step := (runAtoms os d rest (step + 1)).step,
          output := (runAtoms os d rest (step + 1)).output,
          trace := (Sdblib.continue_execution os step d).trace
            ++ (runAtoms os d rest (step + 1)).trace } :=
  rfl

theorem runAtoms_append (os : Sdblib.OS) (d : Sdblib.Debugger)
    (l1 l2 : List Atom) : ∀ step : Nat,
    runAtoms os d (l1 ++ l2) step =
      seqOut (runAtoms os d l1 step) (fun st => runAtoms os d l2 st) := by
  induction l1 with
  | nil => intro step; rfl
  | cons a rest ih =>
    intro step
    cases a with
    | exit => rfl
    | fault k =>
      rw [List.cons_append, runAtoms_fault, runAtoms_fault, ih step]
      cases hres : (runAtoms os d rest step).res with
      | ok b => cases b <;> simp [seqOut, hres]
      | error e => simp [seqOut, hres]
    | resume =>
      rw [List.cons_append, runAtoms_resume, runAtoms_resume]
      have hih := ih (step + 1)
      cases hc : (Sdblib.continue_execution os step d).res with
      | error e => simp [seqOut]
      | ok u =>
        cases hres : (runAtoms os d rest (step + 1)).res with
        | ok b =>
          cases b <;>
            simp [seqOut, hres, hih, List.append_assoc, List.cons_append]
        | error e => simp [seqOut, hres, hih]

mutual

theorem run_eq_atoms (os : Sdblib.OS) (d : Sdblib.Debugger) :
    ∀ (c : Commands) (step : Nat),
      run_command_ast os d c step = runAtoms os d (atoms c) step
  | .Continue, step => by
    simp only [run_command_ast, atoms, runAtoms]
    cases hc : (Sdblib.continue_execution os step d).res with
    | error e => rfl
    | ok u => simp [runAtoms]
  | .Exit, step => rfl
  | .Error k, step => rfl
  | .Sequence cmds, step => by
    simp only [run_command_ast, atoms]
    exact runSeq_eq_atoms os d cmds step

theorem runSeq_eq_atoms (os : Sdblib.OS) (d : Sdblib.Debugger) :
    ∀ (cs : List Commands) (step : Nat),
      runSeqCmds os d cs step = runAtoms os d (atomsList cs) step
  | [], step => rfl
  | c :: cs, step => by
    have hc := run_eq_atoms os d c step
    have hcs := runSeq_eq_atoms os d cs
    simp only [runSeqCmds, atomsList]
    rw [runAtoms_append, ← hc]
    unfold seqOut
    cases hres : (run_command_ast os d c step).res with
    | ok b =>
      cases b with
      | true => rw [hcs]
      | false => rfl
    | error e => rfl

end

theorem runAtoms_exit_truncate (os : Sdblib.OS) (d : Sdblib.Debugger)
    (pre post : List Atom) (step : Nat) :
    runAtoms os d (pre ++ Atom.exit :: post) step =
      runAtoms os d (pre ++ [Atom.exit]) step := by
  rw [runAtoms_append, runAtoms_append]
  congr 1

theorem runAtoms_false_origin (os : Sdblib.OS) (d : Sdblib.Debugger) :
    ∀ (l : List Atom) (step : Nat),
      (runAtoms os d l step).res = .ok false →
      ∃ pre post, l = pre ++ Atom.exit :: post ∧
        (runAtoms os d pre step).res = .ok true
  | [], step, h => by simp [runAtoms] at h
  | .exit :: rest, _, _ => ⟨[], rest, rfl, rfl⟩
  | .fault k :: rest, step, h => by
    have h' : (runAtoms os d rest step).res = .ok false := h
    obtain ⟨pre, post, hsplit, hok⟩ := runAtoms_false_origin os d rest step h'
    exact ⟨Atom.fault k :: pre, post, by rw [List.cons_append, hsplit], hok⟩
  | .resume :: rest, step, h => by
    simp only [runAtoms] at h
    cases hc : (Sdblib.continue_execution os step d).res with
    | error e => rw [hc] at h; simp at h
    | ok u =>
      rw [hc] at h
      simp only [] at h
      obtain ⟨pre, post, hsplit, hok⟩ :=
        runAtoms_false_origin os d rest (step + 1) h
      refine ⟨Atom.resume :: pre, post, by rw [List.cons_append, hsplit], ?_⟩
      simp only [runAtoms]
      rw [hc]
      exact hok

end Cmd

/-- C2: the claim says parsing never fails to produce an AST for any
input.  At the concrete input ";" the parser produces no AST at all
(`parse_command` returns `none`, with one diagnostic): the recovery
parser accepts only alphabetic token runs, so nothing recovers the
parse and the whole parse fails. -/
theorem C2_counterexample :
    (Cmd.parse_command ";").1 = none ∧
    (Cmd.parse_command ";").2.length = 1 :=
  ⟨rfl, rfl⟩

/-- C2 (amended): parsing produces at most one AST: whenever it
produces one, that AST is a `Sequence` node (possibly containing
`Error` nodes), paired with the list of diagnostics; for some inputs
(garbage the alphabetic-run recovery cannot capture, such as ";") no
AST is produced and the driver treats the command as a no-op. -/
theorem C2_amended_thm (s : String) (c : Cmd.Commands)
    (h : (Cmd.parse_command s).1 = some c) :
    ∃ l, c = Cmd.Commands.Sequence l := by
  simp only [Cmd.parse_command, Option.map_eq_some'] at h
  obtain ⟨l, _, hl⟩ := h
  exact ⟨l, hl.symm⟩

/-- C2 witness: the amended theorem at input "continue", whose parse
succeeds with the AST `Sequence [Continue]`. -/
theorem C2_amended_witness :
    ∃ l, Cmd.Commands.Sequence [Cmd.Commands.Continue] = Cmd.Commands.Sequence l :=
  C2_amended_thm "continue" (Cmd.Commands.Sequence [Cmd.Commands.Continue]) rfl

/-- C4: the claim's input "continue ; bogus ; exit" (spaces around the
separators) does not parse to a `Sequence` at all: the keyword
alternatives are whitespace-padded but the `error_command` recovery run
of alphabetic characters is not, so the space before "bogus" defeats
recovery, the repetition stops after `Continue`, and the parse fails
with no AST. -/
theorem C4_counterexample :
    (Cmd.parse_command "continue ; bogus ; exit").1 = none :=
  rfl

/-- C4 (amended): parsing "continue;bogus;exit" (no spaces around the
separators) yields exactly the `Sequence`
`[Continue, Error(UnexpectedCommand "bogus"), Exit]` together with
exactly one diagnostic, whose byte span `9..10` points at the start of
the `bogus` token (the offset where both keyword alternatives failed). -/
theorem C4_amended_thm :
    Cmd.parse_command "continue;bogus;exit" =
      (some (Cmd.Commands.Sequence
        [Cmd.Commands.Continue,
         Cmd.Commands.Error (Cmd.ErrorKind.UnexpectedCommand "bogus"),
         Cmd.Commands.Exit]),
       [{ start := 9, stop := 10 }]) :=
  rfl

/-- C5: executing a command AST never runs anything after an `Exit` leaf:
if the depth-first leaf sequence splits as `pre ++ exit :: post`, the
entire execution outcome (result, engine-call trace and output included)
equals that of the program truncated at the `Exit` — in particular no
resume after the `Exit` is ever invoked — and the continue-session
signal is `Ok(false)` only when an `Exit` was actually executed (every
leaf before it having succeeded with `Ok(true)`). -/
theorem C5_thm (os : Sdblib.OS) (d : Sdblib.Debugger) (step : Nat)
    (c : Cmd.Commands) (pre post : List Cmd.Atom)
    (h : Cmd.atoms c = pre ++ Cmd.Atom.exit :: post) :
    Cmd.run_command_ast os d c step =
      Cmd.runAtoms os d (pre ++ [Cmd.Atom.exit]) step ∧
    (∀ (c' : Cmd.Commands) (step' : Nat),
      (Cmd.run_command_ast os d c' step').res = .ok false →
      ∃ pre' post', Cmd.atoms c' = pre' ++ Cmd.Atom.exit :: post' ∧
        (Cmd.runAtoms os d pre' step').res = .ok true) := by
  constructor
  · rw [Cmd.run_eq_atoms os d c step, h, Cmd.runAtoms_exit_truncate]
  · intro c' step' h'
    rw [Cmd.run_eq_atoms os d c' step'] at h'
    exact Cmd.runAtoms_false_origin os d (Cmd.atoms c') step' h'

/-- C5 witness: executing `Sequence [Exit, Continue]` (one attached
tracee, all-succeeding OS) equals executing just the `Exit` — the
engine's resume is never invoked. -/
theorem C5_witness :
    Cmd.run_command_ast Sdblib.osAllOk
        { managed_processes := [], attached_processes := [5] }
        (Cmd.Commands.Sequence [Cmd.Commands.Exit, Cmd.Commands.Continue]) 0 =
      Cmd.runAtoms Sdblib.osAllOk
        { managed_processes := [], attached_processes := [5] }
        [Cmd.Atom.exit] 0 :=
  (C5_thm Sdblib.osAllOk
      { managed_processes := [], attached_processes := [5] } 0
      (Cmd.Commands.Sequence [Cmd.Commands.Exit, Cmd.Commands.Continue])
      [] [Cmd.Atom.resume] rfl).1

/-- C10: an `Error(kind)` node is non-fatal to execution: it produces
exactly one output line naming the kind (Rust `Debug` formatting),
returns the continue signal `Ok(true)` with no engine calls, and inside
a `Sequence` every subsequent element still executes — the sequence's
outcome equals that of the remaining elements with the diagnostic line
prepended to the output. -/
theorem C10_thm (os : Sdblib.OS) (d : Sdblib.Debugger) (step : Nat)
    (k : Cmd.ErrorKind) (cs : List Cmd.Commands) :
    Cmd.run_command_ast os d (Cmd.Commands.Error k) step =
      { res := .ok true, step := step, output := [Cmd.errLine k], trace := [] } ∧
    Cmd.runSeqCmds os d (Cmd.Commands.Error k :: cs) step =
      { Cmd.runSeqCmds os d cs step with
        output := Cmd.errLine k :: (Cmd.runSeqCmds os d cs step).output } :=
  ⟨rfl, rfl⟩

namespace Mux

theorem muxStep_absent (o : SelectReady) : (muxStep false o).1 = false := by
  cases o with
  | term r => cases r <;> rfl
  | tickFire => rfl
  | child r => cases r <;> rfl

theorem muxRun_stays_absent : ∀ (sched : List SelectReady),
    (muxRun false sched).1 = false
  | [] => rfl
  | o :: os => by
    show (muxRun (muxStep false o).1 os).1 = false
    rw [muxStep_absent o]
    exact muxRun_stays_absent os

theorem muxRun_no_error : ∀ (sched : List SelectReady),
    (∀ o ∈ sched, isTickOrTermEv o = true) →
    MuxEvent.error ∉ (muxRun false sched).2 ∧
    (muxRun false sched).2.length = sched.length
  | [], _ => ⟨by simp [muxRun], rfl⟩
  | o :: os, h => by
    have ho := h o (List.mem_cons_self o os)
    have ih := muxRun_no_error os (fun o' ho' => h o' (List.mem_cons_of_mem o ho'))
    cases o with
    | tickFire =>
      constructor
      · show MuxEvent.error ∉ [MuxEvent.tick] ++ (muxRun false os).2
        intro hmem
        rcases List.mem_append.mp hmem with h1 | h2
        · simp at h1
        · exact ih.1 h2
      · show ([MuxEvent.tick] ++ (muxRun false os).2).length = os.length + 1
        simp [ih.2]
    | term r =>
      cases r with
      | closed => simp [isTickOrTermEv] at ho
      | failed => simp [isTickOrTermEv] at ho
      | ev e =>
        constructor
        · show MuxEvent.error ∉ [MuxEvent.crossterm e] ++ (muxRun false os).2
          intro hmem
          rcases List.mem_append.mp hmem with h1 | h2
          · simp at h1
          · exact ih.1 h2
        · show ([MuxEvent.crossterm e] ++ (muxRun false os).2).length = os.length + 1
          simp [ih.2]
    | child r => simp [isTickOrTermEv] at ho

end Mux

/-- C8: once the child-output source reaches end of stream
(`next_line()` returns `Ok(None)`), the event task drops the reader and
emits nothing for that iteration; the reader stays dropped for the whole
remainder of the run; afterwards a tick still emits `Tick` and a
successfully read terminal event still emits its event; over any
remaining schedule of ticks and successful terminal reads, every
iteration still emits exactly one event and no `Error` event is ever
emitted — the loop does not terminate or fail on account of the
exhausted child source. -/
theorem C8_thm :
    Mux.muxStep true (Mux.SelectReady.child Mux.ChildRead.eos) = (false, []) ∧
    (∀ sched : List Mux.SelectReady, (Mux.muxRun false sched).1 = false) ∧
    (∀ e, Mux.muxStep false (Mux.SelectReady.term (Mux.TermRead.ev e))
        = (false, [Mux.MuxEvent.crossterm e])) ∧
    Mux.muxStep false Mux.SelectReady.tickFire = (false, [Mux.MuxEvent.tick]) ∧
    (∀ sched : List Mux.SelectReady,
      (∀ o ∈ sched, Mux.isTickOrTermEv o = true) →
      Mux.MuxEvent.error ∉ (Mux.muxRun false sched).2 ∧
      (Mux.muxRun false sched).2.length = sched.length) :=
  ⟨rfl, Mux.muxRun_stays_absent, fun _ => rfl, rfl, Mux.muxRun_no_error⟩

/-- C8 witness: after the child source is gone, the schedule
[tick, terminal event] delivers two events and no error. -/
theorem C8_witness :
    Mux.MuxEvent.error ∉ (Mux.muxRun false
      [Mux.SelectReady.tickFire,
       Mux.SelectReady.term (Mux.TermRead.ev { id := 3 })]).2 ∧
    (Mux.muxRun false
      [Mux.SelectReady.tickFire,
       Mux.SelectReady.term (Mux.TermRead.ev { id := 3 })]).2.length = 2 :=
  C8_thm.2.2.2.2
    [Mux.SelectReady.tickFire, Mux.SelectReady.term (Mux.TermRead.ev { id := 3 })]
    (by decide)

namespace GuiHistory

theorem move_field_empty (cur : String) (idx : Nat) (inp : String) (dir : Int) :
    move_history
        { history := [], history_current := cur, index_history := idx, input := inp }
        dir
      = { history := [], history_current := cur, index_history := idx, input := inp } := by
  simp [move_history]

theorem move_field_out (H : List String) (cur : String) (idx : Nat) (inp : String)
    (dir : Int) (hne : H ≠ [])
    (hgt : ((idx : Int) + dir).toNat > H.length) :
    move_history
        { history := H, history_current := cur, index_history := idx, input := inp }
        dir
      = { history := H, history_current := cur, index_history := idx, input := inp } := by
  simp only [move_history]
  rw [if_neg (by simp [hne]), if_pos hgt]

theorem move_field_same (H : List String) (cur : String) (idx : Nat) (inp : String)
    (dir : Int) (hne : H ≠ [])
    (hle : ¬((idx : Int) + dir).toNat > H.length)
    (hsame : idx = ((idx : Int) + dir).toNat) :
    move_history
        { history := H, history_current := cur, index_history := idx, input := inp }
        dir
      = { history := H, history_current := cur, index_history := idx, input := inp } := by
  simp only [move_history]
  rw [if_neg (by simp [hne]), if_neg hle, if_pos hsame]

theorem move_field_fresh (H : List String) (cur : String) (idx : Nat) (inp : String)
    (dir : Int) (hne : H ≠ [])
    (hle : ¬((idx : Int) + dir).toNat > H.length)
    (hneq : ¬idx = ((idx : Int) + dir).toNat)
    (hlen : ((idx : Int) + dir).toNat = H.length) :
    move_history
        { history := H, history_current := cur, index_history := idx, input := inp }
        dir
      = { history := H, history_current := cur,
          index_history := ((idx : Int) + dir).toNat, input := cur } := by
  simp only [move_history]
  rw [if_neg (by simp [hne]), if_neg hle, if_neg hneq, if_pos hlen]

theorem move_field_entry_from_fresh (H : List String) (cur : String) (idx : Nat)
    (inp : String) (dir : Int) (hne : H ≠ [])
    (hle : ¬((idx : Int) + dir).toNat > H.length)
    (hneq : ¬idx = ((idx : Int) + dir).toNat)
    (hnlen : ¬((idx : Int) + dir).toNat = H.length)
    (hfresh : idx = H.length) :
    move_history
        { history := H, history_current := cur, index_history := idx, input := inp }
        dir
      = { history := H, history_current := inp,
          index_history := ((idx : Int) + dir).toNat,
          input := H.getD (((idx : Int) + dir).toNat) "" } := by
  simp only [move_history]
  rw [if_neg (by simp [hne]), if_neg hle, if_neg hneq, if_neg hnlen, if_pos hfresh]

theorem move_field_entry_stay (H : List String) (cur : String) (idx : Nat)
    (inp : String) (dir : Int) (hne : H ≠ [])
    (hle : ¬((idx : Int) + dir).toNat > H.length)
    (hneq : ¬idx = ((idx : Int) + dir).toNat)
    (hnlen : ¬((idx : Int) + dir).toNat = H.length)
    (hnfresh : ¬idx = H.length) :
    move_history
        { history := H, history_current := cur, index_history := idx, input := inp }
        dir
      = { history := H, history_current := cur,
          index_history := ((idx : Int) + dir).toNat,
          input := H.getD (((idx : Int) + dir).toNat) "" } := by
  simp only [move_history]
  rw [if_neg (by simp [hne]), if_neg hle, if_neg hneq, if_neg hnlen, if_neg hnfresh]

end GuiHistory

/-- C9: history navigation.  Moving in history when the log is empty is
a no-op (any direction, in particular up); moving down from the
fresh-line position is a no-op; and from the fresh-line position with
any in-progress text, navigating up twice then down twice restores the
original unsubmitted input text exactly (the first up-move captures the
edit into the scratch buffer, and landing back on the fresh line
restores it). -/
theorem C9_thm (s : GuiHistory.GuiState) :
    (s.history = [] → GuiHistory.move_history s (-1) = s) ∧
    (s.index_history = s.history.length → GuiHistory.move_history s 1 = s) ∧
    (s.history ≠ [] → s.index_history = s.history.length →
      (GuiHistory.move_history (GuiHistory.move_history (GuiHistory.move_history
        (GuiHistory.move_history s (-1)) (-1)) 1) 1).input = s.input) := by
  obtain ⟨H, cur, idx, inp⟩ := s
  refine ⟨?_, ?_, ?_⟩
  · intro h
    subst h
    exact GuiHistory.move_field_empty cur idx inp (-1)
  · intro hidx
    by_cases hH : H = []
    · subst hH
      exact GuiHistory.move_field_empty cur idx inp 1
    · have hidx2 : idx = H.length := hidx
      subst hidx2
      exact GuiHistory.move_field_out H cur H.length inp 1 hH (by omega)
  · intro hne0 hidx
    have hne : H ≠ [] := hne0
    have hidx2 : idx = H.length := hidx
    subst hidx2
    have hn : 0 < H.length := List.length_pos.mpr hne
    rw [GuiHistory.move_field_entry_from_fresh H cur H.length inp (-1) hne
        (by omega) (by omega) (by omega) rfl,
      show (((H.length : Int)) + (-1)).toNat = H.length - 1 from by omega]
    rcases Nat.lt_or_ge 1 H.length with h2 | h2
    · rw [GuiHistory.move_field_entry_stay H inp (H.length - 1)
          (H.getD (H.length - 1) "") (-1) hne
          (by omega) (by omega) (by omega) (by omega),
        show (((H.length - 1 : Nat) : Int) + (-1)).toNat = H.length - 2
          from by omega]
      rw [GuiHistory.move_field_entry_stay H inp (H.length - 2)
          (H.getD (H.length - 2) "") 1 hne
          (by omega) (by omega) (by omega) (by omega),
        show (((H.length - 2 : Nat) : Int) + 1).toNat = H.length - 1
          from by omega]
      rw [GuiHistory.move_field_fresh H inp (H.length - 1)
          (H.getD (H.length - 1) "") 1 hne (by omega) (by omega) (by omega)]
    · have hl1 : H.length = 1 := Nat.le_antisymm h2 hn
      rw [GuiHistory.move_field_same H inp (H.length - 1)
          (H.getD (H.length - 1) "") (-1) hne (by omega) (by omega)]
      rw [GuiHistory.move_field_fresh H inp (H.length - 1)
          (H.getD (H.length - 1) "") 1 hne (by omega) (by omega) (by omega),
        show (((H.length - 1 : Nat) : Int) + 1).toNat = H.length from by omega]
      rw [GuiHistory.move_field_out H inp H.length inp 1 hne (by omega)]

/-- C9 witness: history ["a", "b"], fresh-line cursor, in-progress text
"xyz": up, up, down, down restores "xyz". -/
theorem C9_witness :
    (GuiHistory.move_history (GuiHistory.move_history (GuiHistory.move_history
      (GuiHistory.move_history
        { history := ["a", "b"], history_current := "", index_history := 2,
          input := "xyz" } (-1)) (-1)) 1) 1).input = "xyz" :=
  (C9_thm
    { history := ["a", "b"], history_current := "", index_history := 2,
      input := "xyz" }).2.2 (by decide) rfl
